import Mathlib

/-
Verification development for the questionary repository.

Shallow embedding of src/questionary/form.py (the Form engine: the
resolution loop of Form.unsafe_ask, here called Form.resolve, and the
safe wrapper Form.ask) and of the argument validation prefix of
src/questionary/prompts/select.py.

Modelling conventions:
  - Python dicts are association lists with in-place update (an update of
    an existing key keeps its position, a new key is appended), mirroring
    insertion-order semantics.
  - Answer values are natural numbers; predicates are arbitrary Lean
    functions from the values view to a fallible boolean, mirroring
    arbitrary Python callables that may raise.
  - Raised exceptions are the Err type; a KeyError raised while a skip
    condition or a question runs is caught by the loop (the except KeyError
    branch of form.py), every other error propagates.
  - The while loop of unsafe_ask is embedded with explicit fuel
    form_fields.length + 1; each executed pass either raises or strictly
    grows the answer dict, whose size is bounded by the number of fields,
    so this fuel is never exhausted on a real run.  Exhaustion is mapped
    to the artificial Err.outOfFuel marker.
  - The run is instrumented with an event trace (Ev) recording, per field
    visit, whether the question was asked, the default was recorded, or
    the visit was skipped because the skip condition raised KeyError.
-/

set_option maxHeartbeats 1000000
set_option linter.unnecessarySeqFocus false

abbrev Key := String

deriving instance DecidableEq for Except

/-- Exceptions that can travel through the resolution loop of form.py. -/
inductive Err where
  | keyError
  | keyboardInterrupt
  | dependencyError
  | outOfFuel
  | other (code : Nat)
deriving DecidableEq

/-- Modelled from the spec: the Question collaborator of section 4.4
(src/questionary/question.py is not part of the sources).  A question
exposes a statically configured default value and an ask operation that
either produces one value or raises; qid stands for the object identity
used when the values view is keyed by the Question instance. -/
structure Question where
  qid : Nat
  default : Nat
  askR : Except Err Nat
deriving DecidableEq

/-- FormField from form.py: namedtuple of key and question. -/
structure FormField where
  key : Key
  question : Question
deriving DecidableEq

/-- Lookup of a key in an insertion-ordered association list (Python dict
read, returning none instead of raising). -/
def alookup {κ α : Type} [DecidableEq κ] : List (κ × α) → κ → Option α
  | [], _ => none
  | (k0, v0) :: rest, k => if k0 = k then some v0 else alookup rest k

/-- Python `k in d` membership test. -/
def acontains {κ α : Type} [DecidableEq κ] (m : List (κ × α)) (k : κ) : Bool :=
  (alookup m k).isSome

/-- Python dict assignment d[k] = v: replace in place, else append. -/
def ainsert {κ α : Type} [DecidableEq κ] : List (κ × α) → κ → α → List (κ × α)
  | [], k, v => [(k, v)]
  | (k0, v0) :: rest, k, v =>
    if k0 = k then (k0, v) :: rest else (k0, v0) :: ainsert rest k v

/-- Keys of the dual-keyed values view built each iteration in unsafe_ask:
an entry per answered field under its Question object (by identity) and
under its string key. -/
inductive LKey where
  | byKey (k : Key)
  | byQuestion (qid : Nat)
deriving DecidableEq

abbrev Answers := List (Key × Nat)
abbrev ValuesView := List (LKey × Nat)

/-- A skip condition: an arbitrary callable applied to the values view;
it may raise (KeyError on a missing-key dict access in particular). -/
abbrev Pred := ValuesView → Except Err Bool

/-- The Form of form.py: ordered fields plus the skip_conditions dict. -/
structure Form where
  form_fields : List FormField
  skip_conditions : List (Key × Pred)

/-- Form.skip_if of form.py: store each condition under its key
(overwriting a previous one), returning the form for chaining. -/
def Form.skip_if (form : Form) (conditions : List (Key × Pred)) : Form :=
  { form with
    skip_conditions :=
      conditions.foldl (fun m kc => ainsert m kc.1 kc.2) form.skip_conditions }

/-- Trace events instrumenting one field visit of the loop. -/
inductive Ev where
  | asked (k : Key) (v : Nat)
  | askRaised (k : Key) (e : Err)
  | defaulted (k : Key)
  | pendingPred (k : Key)
deriving DecidableEq

/-- The field key an event belongs to. -/
def Ev.evKey : Ev → Key
  | Ev.asked k _ => k
  | Ev.askRaised k _ => k
  | Ev.defaulted k => k
  | Ev.pendingPred k => k

/-- The values view built at each iteration of the inner for loop:
dict comprehension keyed by question objects, then update with the
string-keyed answers. -/
def buildValues (fields : List FormField) (answers : Answers) : ValuesView :=
  let qpart := fields.foldl
    (fun m f =>
      match alookup answers f.key with
      | some v => ainsert m (LKey.byQuestion f.question.qid) v
      | none => m)
    []
  answers.foldl (fun m kv => ainsert m (LKey.byKey kv.1) kv.2) qpart

/-- The inner for loop of Form.unsafe_ask over the (remaining) fields:
already answered fields get the constant-true skip, otherwise the
registered condition (default constant false); a KeyError raised by the
condition or by the question is caught (continue), any other error
propagates; predicate false asks the question, predicate true records the
default. -/
def runFields (form : Form) : List FormField → Answers → List Ev × Except Err Answers
  | [], answers => ([], Except.ok answers)
  | field :: rest, answers =>
    let skip : Pred :=
      if acontains answers field.key then fun _ => Except.ok true
      else
        match alookup form.skip_conditions field.key with
        | some c => c
        | none => fun _ => Except.ok false
    let values := buildValues form.form_fields answers
    match skip values with
    | Except.error e =>
      if e = Err.keyError then
        let r := runFields form rest answers
        (Ev.pendingPred field.key :: r.1, r.2)
      else ([], Except.error e)
    | Except.ok true =>
      let r := runFields form rest (ainsert answers field.key field.question.default)
      (Ev.defaulted field.key :: r.1, r.2)
    | Except.ok false =>
      match field.question.askR with
      | Except.error e =>
        if e = Err.keyError then
          let r := runFields form rest answers
          (Ev.askRaised field.key e :: r.1, r.2)
        else ([Ev.askRaised field.key e], Except.error e)
      | Except.ok v =>
        let r := runFields form rest (ainsert answers field.key v)
        (Ev.asked field.key v :: r.1, r.2)

/-- The while condition of unsafe_ask: every field key answered. -/
def allAnswered (fields : List FormField) (answers : Answers) : Bool :=
  fields.all (fun f => acontains answers f.key)

/-- The while loop of Form.unsafe_ask: run passes until every field is
answered; after a pass that added nothing (count unchanged from the
progress marker) raise DependencyError.  Returns the number of completed
passes, the event trace and the outcome.  Fuel bounds the recursion; the
caller passes enough for any run. -/
def runLoop (form : Form) : Nat → Answers → Nat → Nat × List Ev × Except Err Answers
  | 0, _, _ => (0, [], Except.error Err.outOfFuel)
  | fuel + 1, answers, prev =>
    if allAnswered form.form_fields answers then (0, [], Except.ok answers)
    else
      match runFields form form.form_fields answers with
      | (evs, Except.error e) => (0, evs, Except.error e)
      | (evs, Except.ok a2) =>
        if prev = a2.length then (1, evs, Except.error Err.dependencyError)
        else
          let r := runLoop form fuel a2 a2.length
          (r.1 + 1, evs ++ r.2.1, r.2.2)

/-- Form.unsafe_ask of form.py: fresh empty answers, progress marker 0.
The fuel form_fields.length + 1 covers every possible run (each pass must
add at least one answered key or raise). -/
def Form.resolve (form : Form) : Nat × List Ev × Except Err Answers :=
  runLoop form (form.form_fields.length + 1) [] 0

/-- Form.ask of form.py: call unsafe_ask, catch only KeyboardInterrupt,
print a blank line, the cancellation message and a blank line (modelled as
the returned line list) and return the empty dict; everything else
propagates. -/
def Form.ask (form : Form) (kbi_msg : String) : List String × Except Err Answers :=
  match (Form.resolve form).2.2 with
  | Except.ok a => ([], Except.ok a)
  | Except.error e =>
    if e = Err.keyboardInterrupt then (["", kbi_msg, ""], Except.ok [])
    else ([], Except.error e)

/-- A skip condition that reads the answer of the field named k from the
values view (a Python values[k] access: KeyError when absent) and applies
g to it. -/
def readKey (k : Key) (g : Nat → Bool) : Pred := fun view =>
  match alookup view (LKey.byKey k) with
  | none => Except.error Err.keyError
  | some v => Except.ok (g v)

/-
Embedding of the argument-validation prefix of select() in
src/questionary/prompts/select.py.  Only the data the checks read is
modelled: each choice contributes the value of getattr(c, "shortcut_key", "")
(none stands for a missing attribute or None, which is not "i"/"j"), and
the choices argument is an optional list (none = Python None).  The checks
run in source order: the movement check, then (only when use_shortcuts and
use_ij_keys) the i/j shortcut scan, which iterates choices and therefore
raises TypeError when choices is None; then the None/empty check; then the
shortcut capacity check.  The capacity len(InquirerControl.SHORTCUT_KEYS)
lives in src/questionary/prompts/common.py, not among the sources, so it
is the parameter cap here; it is irrelevant to the claims.  Everything
after the checks (building the prompt) is collapsed into promptBuilt. -/

structure ChoiceArg where
  shortcut_key : Option String
deriving DecidableEq

/-- The scan of the i/j shortcut check: getattr(c, "shortcut_key", "") is
"i" or "j". -/
def hasIJShortcut (c : ChoiceArg) : Bool :=
  c.shortcut_key == some "i" || c.shortcut_key == some "j"

/-- How a call of select() terminates, as far as its validation prefix is
concerned. -/
inductive SelectOutcome where
  | valueErrorMovement
  | valueErrorIJShortcut
  | typeErrorIterNone
  | valueErrorNoChoices
  | valueErrorTooManyShortcuts
  | promptBuilt
deriving DecidableEq

/-- The checks of select() from the None/empty test on. -/
def selectTail (choices : Option (List ChoiceArg)) (use_shortcuts : Bool)
    (cap : Nat) : SelectOutcome :=
  match choices with
  | none => SelectOutcome.valueErrorNoChoices
  | some cs =>
    if cs.length = 0 then SelectOutcome.valueErrorNoChoices
    else if use_shortcuts && decide (cs.length > cap) then
      SelectOutcome.valueErrorTooManyShortcuts
    else SelectOutcome.promptBuilt

/-- select() of select.py, restricted to its validation prefix (the
arguments the checks never read are omitted). -/
def select (choices : Option (List ChoiceArg))
    (use_shortcuts use_arrow_keys use_ij_keys : Bool) (cap : Nat) : SelectOutcome :=
  if !(use_arrow_keys || use_shortcuts) then SelectOutcome.valueErrorMovement
  else if use_shortcuts && use_ij_keys then
    match choices with
    | none => SelectOutcome.typeErrorIterNone
    | some cs =>
      if cs.any hasIJShortcut then SelectOutcome.valueErrorIJShortcut
      else selectTail (some cs) use_shortcuts cap
  else selectTail choices use_shortcuts cap

/-- True exactly for the outcomes where select() raised a ValueError. -/
def SelectOutcome.isValueError : SelectOutcome → Bool
  | SelectOutcome.valueErrorMovement => true
  | SelectOutcome.valueErrorIJShortcut => true
  | SelectOutcome.valueErrorNoChoices => true
  | SelectOutcome.valueErrorTooManyShortcuts => true
  | _ => false

/-
Concrete forms used as evidence inputs.
-/

/-- Two fields, b registered before a; the condition on b reads the answer
of a (and is then false, so b is asked); a answers 5 while its default is
10, b answers 7 with default 20. -/
def c1Form : Form :=
  ⟨[⟨"b", ⟨1, 20, Except.ok 7⟩⟩, ⟨"a", ⟨0, 10, Except.ok 5⟩⟩],
   [("b", readKey "a" (fun _ => false))]⟩

/-- A single field whose question raises KeyError when asked. -/
def kerrForm : Form := ⟨[⟨"x", ⟨0, 0, Except.error Err.keyError⟩⟩], []⟩

/-- A single field whose question raises KeyboardInterrupt when asked. -/
def kiForm : Form := ⟨[⟨"x", ⟨0, 0, Except.error Err.keyboardInterrupt⟩⟩], []⟩

/-- A single field whose condition reads a key that is never a field key. -/
def d7Form : Form := ⟨[⟨"x", ⟨0, 0, Except.ok 1⟩⟩], [("x", readKey "nope" (fun _ => true))]⟩

/-- Two fields whose conditions each read the other field's key: a
dependency cycle. -/
def cycForm : Form :=
  ⟨[⟨"p", ⟨0, 0, Except.ok 1⟩⟩, ⟨"q", ⟨1, 0, Except.ok 2⟩⟩],
   [("p", readKey "q" (fun _ => true)), ("q", readKey "p" (fun _ => true))]⟩

/-- A single field whose condition is constantly true: always skipped. -/
def c6Form : Form := ⟨[⟨"x", ⟨0, 42, Except.ok 7⟩⟩], [("x", fun _ => Except.ok true)]⟩

/-- One resolution call paired with the form it leaves behind: the loop
only reads the form, so the same form value comes back out. -/
def runSession (form : Form) : (Nat × List Ev × Except Err Answers) × Form :=
  (Form.resolve form, form)

/-- The value a successfully asking question produces. -/
def askVal (q : Question) : Nat :=
  match q.askR with
  | Except.ok v => v
  | Except.error _ => 0

/-- C9: for the form with zero fields, unsafe_ask returns the empty
mapping immediately: zero passes, empty trace (so no question asked), no
error, whatever skip conditions are registered. -/
theorem resolve_empty_form (conditions : List (Key × Pred)) :
    Form.resolve ⟨[], conditions⟩ = (0, [], Except.ok []) := rfl

/-- C1: evidence of the divergence.  In a two-pass resolution the field
"a" is asked and answers 5, yet the mapping unsafe_ask returns holds the
question's default 10 for "a": the second pass re-processes the already
answered field through the skip-true branch, which re-assigns
answers[key] = question.default instead of being a no-op. -/
theorem resolve_overwrites_asked_answer_with_default :
    Ev.asked "a" 5 ∈ (Form.resolve c1Form).2.1
    ∧ (Form.resolve c1Form).2.2 = Except.ok [("a", 10), ("b", 7)]
    ∧ (10 : Nat) ≠ 5 :=
  ⟨by decide, rfl, by decide⟩

/-- C4, counterexample: a KeyError raised by a question's ask operation
does not propagate out of unsafe_ask; it is caught by the except KeyError
branch (trace records the raising ask) and the stalled run ends in
DependencyError instead. -/
theorem resolve_swallows_question_keyerror :
    Ev.askRaised "x" Err.keyError ∈ (Form.resolve kerrForm).2.1
    ∧ (Form.resolve kerrForm).2.2 = Except.error Err.dependencyError
    ∧ Err.dependencyError ≠ Err.keyError :=
  ⟨by decide, rfl, by decide⟩

/-- The values view built from an empty answer dict is empty. -/
theorem buildValues_nil (fields : List FormField) : buildValues fields [] = [] := by
  have h : ∀ (fields2 : List FormField),
      fields2.foldl (fun m f =>
        match alookup ([] : Answers) f.key with
        | some v => ainsert m (LKey.byQuestion f.question.qid) v
        | none => m) ([] : ValuesView) = [] := by
    intro fields2
    induction fields2 with
    | nil => rfl
    | cons f rest ih => simp [alookup, ih]
  simpa [buildValues] using h fields

/-- C4, amended: any failure other than KeyError raised by a question's
ask operation propagates unchanged out of unsafe_ask, uncaught and
unreinterpreted (stated for a failing question in first position with no
skip condition of its own; nothing after it runs). -/
theorem resolve_propagates_non_keyerror_ask_failures
    (k : Key) (q : Question) (rest : List FormField)
    (conditions : List (Key × Pred)) (e : Err)
    (hcond : alookup conditions k = none)
    (hask : q.askR = Except.error e)
    (hne : e ≠ Err.keyError) :
    Form.resolve ⟨⟨k, q⟩ :: rest, conditions⟩ = (0, [Ev.askRaised k e], Except.error e) := by
  simp [Form.resolve, runLoop, allAnswered, acontains, alookup, runFields,
        hcond, hask, hne, buildValues_nil]

/-- Witness for the amended C4 theorem at a concrete input. -/
theorem resolve_propagates_non_keyerror_ask_failures_witness :
    Form.resolve ⟨[⟨"v", ⟨3, 0, Except.error (Err.other 5)⟩⟩], []⟩
      = (0, [Ev.askRaised "v" (Err.other 5)], Except.error (Err.other 5)) :=
  resolve_propagates_non_keyerror_ask_failures "v" ⟨3, 0, Except.error (Err.other 5)⟩
    [] [] (Err.other 5) rfl rfl (by decide)

/-- C8: resolution is deterministic and repeatable: a second call on the
form a first call leaves behind returns the identical result; both calls
leave the fields and skip registrations unchanged, and each call starts
from the fresh empty answer dict and progress marker 0. -/
theorem resolve_repeatable_pure (form : Form) :
    (runSession form).1 = (runSession (runSession form).2).1
    ∧ (runSession form).2 = form
    ∧ (runSession (runSession form).2).2 = form
    ∧ Form.resolve form = runLoop form (form.form_fields.length + 1) [] 0 :=
  ⟨rfl, rfl, rfl, rfl⟩

/-- C7: when the resolution loop ends in KeyboardInterrupt, the safe
entry point prints a blank line, the cancellation message and a blank
line and returns the empty mapping; every other failure, DependencyError
included, propagates uncaught through Form.ask (and unsafe_ask itself
surfaces the interrupt unchanged, being the very outcome matched here). -/
theorem ask_keyboard_interrupt_boundary :
    (∀ (form : Form) (msg : String),
       (Form.resolve form).2.2 = Except.error Err.keyboardInterrupt →
       Form.ask form msg = (["", msg, ""], Except.ok []))
    ∧ (∀ (form : Form) (msg : String) (e : Err), e ≠ Err.keyboardInterrupt →
       (Form.resolve form).2.2 = Except.error e →
       Form.ask form msg = ([], Except.error e)) := by
  constructor
  · intro form msg h
    simp [Form.ask, h]
  · intro form msg e hne h
    simp [Form.ask, h, hne]

/-- Witness for C7: a question that raises the interrupt makes Form.ask
print the three lines and return the empty mapping, while a stalled form
lets DependencyError through Form.ask. -/
theorem ask_keyboard_interrupt_boundary_witness :
    Form.ask kiForm "Cancelled by user" = (["", "Cancelled by user", ""], Except.ok [])
    ∧ Form.ask d7Form "Cancelled by user" = ([], Except.error Err.dependencyError) :=
  ⟨ask_keyboard_interrupt_boundary.1 kiForm "Cancelled by user" rfl,
   ask_keyboard_interrupt_boundary.2 d7Form "Cancelled by user" Err.dependencyError
     (by decide) rfl⟩

/-- C10, counterexample: with use_shortcuts and use_ij_keys both enabled,
calling select with choices = None reaches the i/j shortcut scan, which
iterates over None and raises TypeError before the None/empty check can
raise ValueError: no ValueError is raised although choices is None. -/
theorem select_none_choices_no_valueerror :
    select none true true true 35 = SelectOutcome.typeErrorIterNone
    ∧ (select none true true true 35).isValueError = false :=
  ⟨rfl, rfl⟩

/-- Both residual outcomes of the tail checks differ from the two
ValueErrors named by the claim. -/
theorem selectTail_cons_ne (cs : List ChoiceArg) (us : Bool) (cap : Nat)
    (hcs : cs ≠ []) :
    selectTail (some cs) us cap ≠ SelectOutcome.valueErrorNoChoices
    ∧ selectTail (some cs) us cap ≠ SelectOutcome.valueErrorMovement := by
  have hlen : cs.length ≠ 0 := by simpa using hcs
  simp only [selectTail, if_neg hlen]
  split <;> simp

/-- C10, amended: select raises ValueError before constructing any prompt
whenever choices is None or empty, except in the one combination where
use_shortcuts and use_ij_keys are both set and choices is None (there the
i/j scan raises TypeError first); whenever both use_arrow_keys and
use_shortcuts are false it raises ValueError regardless of choices; and
for every non-empty choices list with some movement option enabled, no
ValueError for those two reasons is raised. -/
theorem select_validation_amended :
    (∀ (choices : Option (List ChoiceArg)) (uij : Bool) (cap : Nat),
       select choices false false uij cap = SelectOutcome.valueErrorMovement)
    ∧ (∀ (choices : Option (List ChoiceArg)) (us ua uij : Bool) (cap : Nat),
        (choices = none ∨ choices = some []) →
        (ua || us) = true →
        ¬(us = true ∧ uij = true ∧ choices = none) →
        select choices us ua uij cap = SelectOutcome.valueErrorNoChoices)
    ∧ (∀ (cs : List ChoiceArg) (us ua uij : Bool) (cap : Nat), cs ≠ [] →
        (ua || us) = true →
        select (some cs) us ua uij cap ≠ SelectOutcome.valueErrorNoChoices
        ∧ select (some cs) us ua uij cap ≠ SelectOutcome.valueErrorMovement) := by
  refine ⟨?_, ?_, ?_⟩
  · intro choices uij cap
    simp [select]
  · intro choices us ua uij cap hch hmv hex
    rcases hch with h | h
    · subst h
      cases us <;> cases uij <;> simp_all [select, selectTail]
    · subst h
      cases us <;> cases uij <;> simp_all [select, selectTail]
  · intro cs us ua uij cap hcs hmv
    have h := selectTail_cons_ne cs us cap hcs
    cases us <;> cases uij <;> (simp_all [select]) <;> (try split) <;> simp_all

/-
Association-list helper lemmas.
-/

/-- A dict write is visible at its own key. -/
theorem alookup_ainsert_self {κ α : Type} [DecidableEq κ]
    (m : List (κ × α)) (k : κ) (v : α) :
    alookup (ainsert m k v) k = some v := by
  induction m with
  | nil => simp [ainsert, alookup]
  | cons kv rest ih =>
    obtain ⟨k0, v0⟩ := kv
    by_cases h : k0 = k <;> simp [ainsert, alookup, h, ih]

/-- A dict write leaves every other key unchanged. -/
theorem alookup_ainsert_ne {κ α : Type} [DecidableEq κ]
    (m : List (κ × α)) (k k' : κ) (v : α) (h : k ≠ k') :
    alookup (ainsert m k v) k' = alookup m k' := by
  induction m with
  | nil => simp [ainsert, alookup, h]
  | cons kv rest ih =>
    obtain ⟨k0, v0⟩ := kv
    by_cases h0 : k0 = k
    · subst h0
      simp [ainsert, alookup, h]
    · simp [ainsert, alookup, h0, ih]

/-- Absent membership is exactly a none lookup. -/
theorem acontains_false_iff {κ α : Type} [DecidableEq κ]
    (m : List (κ × α)) (k : κ) :
    acontains m k = false ↔ alookup m k = none := by
  cases h : alookup m k <;> simp [acontains, h]

/-- Writing a fresh key appends the pair. -/
theorem ainsert_fresh {κ α : Type} [DecidableEq κ]
    (m : List (κ × α)) (k : κ) (v : α) (h : alookup m k = none) :
    ainsert m k v = m ++ [(k, v)] := by
  induction m with
  | nil => simp [ainsert]
  | cons kv rest ih =>
    obtain ⟨k0, v0⟩ := kv
    by_cases h0 : k0 = k
    · simp [alookup, h0] at h
    · simp [alookup, h0] at h
      simp [ainsert, h0, ih h]

/-- C2: two fields where B's skip condition reads A's answer and A has
none.  A before B: one pass, A asked then B settled (asked or defaulted by
its condition).  B before A: pass 1 skips B silently (pendingPred event,
no answer, no error) and asks A; pass 2 settles B; exactly two passes.
The trace and result are computed exactly; the second equation also
records that the second pass re-defaults the already answered A. -/
theorem resolve_dependency_order_passes
    (kA kB : Key) (qA qB : Question) (a b : Nat) (g : Nat → Bool)
    (hne : kA ≠ kB) (hA : qA.askR = Except.ok a) (hB : qB.askR = Except.ok b) :
    Form.resolve ⟨[⟨kA, qA⟩, ⟨kB, qB⟩], [(kB, readKey kA g)]⟩
      = (1, [Ev.asked kA a, if g a then Ev.defaulted kB else Ev.asked kB b],
         Except.ok [(kA, a), (kB, if g a then qB.default else b)])
    ∧ Form.resolve ⟨[⟨kB, qB⟩, ⟨kA, qA⟩], [(kB, readKey kA g)]⟩
      = (2, [Ev.pendingPred kB, Ev.asked kA a,
             if g a then Ev.defaulted kB else Ev.asked kB b, Ev.defaulted kA],
         Except.ok [(kA, qA.default), (kB, if g a then qB.default else b)]) := by
  cases hga : g a <;>
    constructor <;>
      simp [Form.resolve, runLoop, runFields, allAnswered, acontains, alookup,
            ainsert, buildValues, readKey, hne, Ne.symm hne, hA, hB, hga]

/-- Witness for C2 at concrete inputs: the skip condition compares A's
answer with 5, which holds for the first pair of questions (B defaulted)
and fails for the second (B asked). -/
theorem resolve_dependency_order_passes_witness :
    Form.resolve ⟨[⟨"a", ⟨0, 10, Except.ok 5⟩⟩, ⟨"s", ⟨1, 20, Except.ok 7⟩⟩],
                  [("s", readKey "a" (fun v => v == 5))]⟩
      = (1, [Ev.asked "a" 5, Ev.defaulted "s"], Except.ok [("a", 5), ("s", 20)])
    ∧ Form.resolve ⟨[⟨"s", ⟨1, 20, Except.ok 7⟩⟩, ⟨"a", ⟨0, 11, Except.ok 6⟩⟩],
                    [("s", readKey "a" (fun v => v == 5))]⟩
      = (2, [Ev.pendingPred "s", Ev.asked "a" 6, Ev.asked "s" 7, Ev.defaulted "a"],
         Except.ok [("a", 11), ("s", 7)]) :=
  ⟨(resolve_dependency_order_passes "a" "s" ⟨0, 10, Except.ok 5⟩ ⟨1, 20, Except.ok 7⟩
      5 7 (fun v => v == 5) (by decide) rfl rfl).1,
   (resolve_dependency_order_passes "a" "s" ⟨0, 11, Except.ok 6⟩ ⟨1, 20, Except.ok 7⟩
      6 7 (fun v => v == 5) (by decide) rfl rfl).2⟩

/-- Any field of the list is answered in the dict built from the list by
pairing each field key with a value. -/
theorem acontains_map_pair (g : FormField → Nat) :
    ∀ (l : List FormField) (f : FormField), f ∈ l →
    acontains (l.map (fun f2 => (f2.key, g f2))) f.key = true := by
  intro l
  induction l with
  | nil => intro f hf; simp at hf
  | cons f0 r ih =>
    intro f hf
    by_cases h : f0.key = f.key
    · simp [acontains, alookup, h]
    · rcases List.mem_cons.mp hf with rfl | hr
      · exact absurd rfl h
      · simpa [acontains, alookup, h] using ih f hr

/-- One pass over fields with no registered skip conditions and
successfully answering questions: every still unanswered field is asked
in order and its produced value appended. -/
theorem runFields_no_skip (form : Form) (hc : form.skip_conditions = []) :
    ∀ (fields2 : List FormField) (answers : Answers),
    (∀ f ∈ fields2, f.question.askR = Except.ok (askVal f.question)) →
    (∀ f ∈ fields2, acontains answers f.key = false) →
    (fields2.map FormField.key).Nodup →
    runFields form fields2 answers =
      (fields2.map (fun f => Ev.asked f.key (askVal f.question)),
       Except.ok (answers ++ fields2.map (fun f => (f.key, askVal f.question)))) := by
  intro fields2
  induction fields2 with
  | nil => intro answers _ _ _; simp [runFields]
  | cons f rest ih =>
    intro answers hask hfresh hnodup
    have hf : acontains answers f.key = false := hfresh f (by simp)
    have hfa : f.question.askR = Except.ok (askVal f.question) := hask f (by simp)
    have hnd := by simpa [List.nodup_cons] using hnodup
    obtain ⟨hnotin, hndrest⟩ := hnd
    have hins : ainsert answers f.key (askVal f.question)
        = answers ++ [(f.key, askVal f.question)] :=
      ainsert_fresh answers f.key (askVal f.question) ((acontains_false_iff _ _).mp hf)
    have hrest : ∀ f2 ∈ rest,
        acontains (answers ++ [(f.key, askVal f.question)]) f2.key = false := by
      intro f2 h2
      have hne : f.key ≠ f2.key := fun hkeq => hnotin f2 h2 hkeq.symm
      have h0 := (acontains_false_iff _ _).mp (hfresh f2 (List.mem_cons_of_mem f h2))
      have : alookup (ainsert answers f.key (askVal f.question)) f2.key = none := by
        rw [alookup_ainsert_ne answers f.key f2.key (askVal f.question) hne]
        exact h0
      rw [hins] at this
      exact (acontains_false_iff _ _).mpr this
    have ihr := ih (answers ++ [(f.key, askVal f.question)])
      (fun f2 h2 => hask f2 (List.mem_cons_of_mem f h2)) hrest hndrest
    simp only [runFields, hf, hc, alookup, Bool.false_eq_true, if_false, hfa, hins, ihr]
    simp [List.append_assoc]

/-- C5: a form with no skip conditions, distinct keys and successfully
answering questions resolves in exactly one pass, asking each question
exactly once in registration order, and returns one entry per field
holding the value its question produced. -/
theorem resolve_no_skip_single_pass (fields : List FormField)
    (hne : fields ≠ [])
    (hnodup : (fields.map FormField.key).Nodup)
    (hask : ∀ f ∈ fields, f.question.askR = Except.ok (askVal f.question)) :
    Form.resolve ⟨fields, []⟩ =
      (1, fields.map (fun f => Ev.asked f.key (askVal f.question)),
       Except.ok (fields.map (fun f => (f.key, askVal f.question)))) := by
  have hpass := runFields_no_skip ⟨fields, []⟩ rfl fields []
    hask (fun f _ => rfl) hnodup
  obtain ⟨f0, rest, rfl⟩ : ∃ f0 rest, fields = f0 :: rest := by
    cases fields with
    | nil => exact absurd rfl hne
    | cons f0 rest => exact ⟨f0, rest, rfl⟩
  have hstart : allAnswered (f0 :: rest) ([] : Answers) = false := by
    simp [allAnswered, acontains, alookup]
  have hall2 : allAnswered (f0 :: rest)
      ((f0 :: rest).map (fun f => (f.key, askVal f.question))) = true := by
    simp only [allAnswered, List.all_eq_true]
    intro f hf
    exact acontains_map_pair (fun f2 => askVal f2.question) (f0 :: rest) f hf
  simp only [List.map_cons] at hall2
  simp only [Form.resolve, List.length_cons, runLoop, hstart, Bool.false_eq_true,
             if_false, hpass]
  simp [hall2]

/-- Witness for C5 at a concrete two-field form. -/
theorem resolve_no_skip_single_pass_witness :
    Form.resolve ⟨[⟨"x", ⟨0, 1, Except.ok 3⟩⟩, ⟨"y", ⟨1, 2, Except.ok 4⟩⟩], []⟩
      = (1, [Ev.asked "x" 3, Ev.asked "y" 4], Except.ok [("x", 3), ("y", 4)]) :=
  resolve_no_skip_single_pass
    [⟨"x", ⟨0, 1, Except.ok 3⟩⟩, ⟨"y", ⟨1, 2, Except.ok 4⟩⟩]
    (by decide) (by decide) (by decide)

/-- Shape of one field visit: either the visit contributes one event
about this field's key and the loop continues on the rest with the same
dict or with one write under this field's key, or the visit ends the pass
with an error while all events of the step concern this field's key. -/
theorem runFields_cons_cases (form : Form) (f : FormField)
    (rest : List FormField) (answers : Answers) :
    (∃ ev answers2,
       Ev.evKey ev = f.key
       ∧ (answers2 = answers ∨ ∃ w, answers2 = ainsert answers f.key w)
       ∧ runFields form (f :: rest) answers
           = (ev :: (runFields form rest answers2).1, (runFields form rest answers2).2))
    ∨ (∃ evs e, (∀ ev ∈ evs, Ev.evKey ev = f.key)
        ∧ runFields form (f :: rest) answers = (evs, Except.error e)) := by
  by_cases hac : acontains answers f.key
  · exact Or.inl ⟨Ev.defaulted f.key, ainsert answers f.key f.question.default,
      rfl, Or.inr ⟨_, rfl⟩, by simp [runFields, hac]⟩
  · cases hcl : alookup form.skip_conditions f.key with
    | none =>
      cases hq : f.question.askR with
      | ok v =>
        exact Or.inl ⟨Ev.asked f.key v, ainsert answers f.key v,
          rfl, Or.inr ⟨_, rfl⟩, by simp [runFields, hac, hcl, hq]⟩
      | error e =>
        by_cases he : e = Err.keyError
        · exact Or.inl ⟨Ev.askRaised f.key e, answers,
            rfl, Or.inl rfl, by simp [runFields, hac, hcl, hq, he]⟩
        · exact Or.inr ⟨[Ev.askRaised f.key e], e,
            by simp [Ev.evKey], by simp [runFields, hac, hcl, hq, he]⟩
    | some c =>
      cases hcv : c (buildValues form.form_fields answers) with
      | ok bv =>
        cases bv with
        | true =>
          exact Or.inl ⟨Ev.defaulted f.key, ainsert answers f.key f.question.default,
            rfl, Or.inr ⟨_, rfl⟩, by simp [runFields, hac, hcl, hcv]⟩
        | false =>
          cases hq : f.question.askR with
          | ok v =>
            exact Or.inl ⟨Ev.asked f.key v, ainsert answers f.key v,
              rfl, Or.inr ⟨_, rfl⟩, by simp [runFields, hac, hcl, hcv, hq]⟩
          | error e =>
            by_cases he : e = Err.keyError
            · exact Or.inl ⟨Ev.askRaised f.key e, answers,
                rfl, Or.inl rfl, by simp [runFields, hac, hcl, hcv, hq, he]⟩
            · exact Or.inr ⟨[Ev.askRaised f.key e], e,
                by simp [Ev.evKey], by simp [runFields, hac, hcl, hcv, hq, he]⟩
      | error e =>
        by_cases he : e = Err.keyError
        · exact Or.inl ⟨Ev.pendingPred f.key, answers,
            rfl, Or.inl rfl, by simp [runFields, hac, hcl, hcv, he]⟩
        · exact Or.inr ⟨[], e, by simp, by simp [runFields, hac, hcl, hcv, he]⟩

/-- One pass never asks a field whose registered skip condition is
constantly true (shared by every field carrying that key), and keeps the
invariant that the key is either unanswered or holds that question's
default. -/
theorem runFields_const_true_cond (form : Form) (fd : FormField) (p : Pred)
    (hsame : ∀ f ∈ form.form_fields, f.key = fd.key → f.question = fd.question)
    (hcond : alookup form.skip_conditions fd.key = some p)
    (htrue : ∀ view, p view = Except.ok true) :
    ∀ (fields2 : List FormField) (answers : Answers),
    (∀ f ∈ fields2, f ∈ form.form_fields) →
    (alookup answers fd.key = none
      ∨ alookup answers fd.key = some fd.question.default) →
    (∀ v, Ev.asked fd.key v ∉ (runFields form fields2 answers).1)
    ∧ (∀ e, Ev.askRaised fd.key e ∉ (runFields form fields2 answers).1)
    ∧ (∀ a2, (runFields form fields2 answers).2 = Except.ok a2 →
        alookup a2 fd.key = none
          ∨ alookup a2 fd.key = some fd.question.default) := by
  intro fields2
  induction fields2 with
  | nil =>
    intro answers _ hinv
    refine ⟨by simp [runFields], by simp [runFields], ?_⟩
    intro a2 h
    simp only [runFields] at h
    cases h
    exact hinv
  | cons f rest ih =>
    intro answers hsub hinv
    have hfmem : f ∈ form.form_fields := hsub f (List.mem_cons_self f rest)
    have hsub2 : ∀ f2 ∈ rest, f2 ∈ form.form_fields :=
      fun f2 h2 => hsub f2 (List.mem_cons_of_mem f h2)
    by_cases hkey : f.key = fd.key
    · have hq : f.question = fd.question := hsame f hfmem hkey
      have hstep : runFields form (f :: rest) answers
          = (Ev.defaulted f.key
              :: (runFields form rest (ainsert answers f.key f.question.default)).1,
             (runFields form rest (ainsert answers f.key f.question.default)).2) := by
        by_cases hac : acontains answers f.key
        · simp [runFields, hac]
        · have hc2 : alookup form.skip_conditions f.key = some p := by
            rw [hkey]; exact hcond
          simp [runFields, hac, hc2, htrue]
      have hinv2 : alookup (ainsert answers f.key f.question.default) fd.key = none
          ∨ alookup (ainsert answers f.key f.question.default) fd.key
              = some fd.question.default := by
        rw [hkey, hq]
        exact Or.inr (alookup_ainsert_self answers fd.key fd.question.default)
      obtain ⟨ih1, ih2, ih3⟩ := ih (ainsert answers f.key f.question.default) hsub2 hinv2
      refine ⟨?_, ?_, ?_⟩
      · intro v hv
        rw [hstep] at hv
        rcases List.mem_cons.mp hv with h | h
        · exact Ev.noConfusion h
        · exact ih1 v h
      · intro e he
        rw [hstep] at he
        rcases List.mem_cons.mp he with h | h
        · exact Ev.noConfusion h
        · exact ih2 e h
      · intro a2 h
        rw [hstep] at h
        exact ih3 a2 h
    · rcases runFields_cons_cases form f rest answers with
        ⟨ev, answers2, hk, hins, heq⟩ | ⟨evs, e, hks, heq⟩
      · have hinv2 : alookup answers2 fd.key = none
            ∨ alookup answers2 fd.key = some fd.question.default := by
          rcases hins with rfl | ⟨w, rfl⟩
          · exact hinv
          · rw [alookup_ainsert_ne answers f.key fd.key w hkey]
            exact hinv
        obtain ⟨ih1, ih2, ih3⟩ := ih answers2 hsub2 hinv2
        refine ⟨?_, ?_, ?_⟩
        · intro v hv
          rw [heq] at hv
          rcases List.mem_cons.mp hv with h | h
          · rw [← h] at hk
            exact hkey (hk.symm)
          · exact ih1 v h
        · intro e2 he2
          rw [heq] at he2
          rcases List.mem_cons.mp he2 with h | h
          · rw [← h] at hk
            exact hkey (hk.symm)
          · exact ih2 e2 h
        · intro a2 h
          rw [heq] at h
          exact ih3 a2 h
      · refine ⟨?_, ?_, ?_⟩
        · intro v hv
          rw [heq] at hv
          exact hkey ((hks _ hv).symm)
        · intro e2 he2
          rw [heq] at he2
          exact hkey ((hks _ he2).symm)
        · intro a2 h
          rw [heq] at h
          cases h

/-- The whole loop never asks a field whose registered skip condition is
constantly true; on success the final dict is fully answered and holds
that question's default under the field's key or nothing. -/
theorem runLoop_const_true_cond (form : Form) (fd : FormField) (p : Pred)
    (hsame : ∀ f ∈ form.form_fields, f.key = fd.key → f.question = fd.question)
    (hcond : alookup form.skip_conditions fd.key = some p)
    (htrue : ∀ view, p view = Except.ok true) :
    ∀ (fuel : Nat) (answers : Answers) (prev : Nat),
    (alookup answers fd.key = none
      ∨ alookup answers fd.key = some fd.question.default) →
    (∀ v, Ev.asked fd.key v ∉ (runLoop form fuel answers prev).2.1)
    ∧ (∀ e, Ev.askRaised fd.key e ∉ (runLoop form fuel answers prev).2.1)
    ∧ (∀ a, (runLoop form fuel answers prev).2.2 = Except.ok a →
        allAnswered form.form_fields a = true
        ∧ (alookup a fd.key = none
            ∨ alookup a fd.key = some fd.question.default)) := by
  intro fuel
  induction fuel with
  | zero =>
    intro answers prev hinv
    refine ⟨by simp [runLoop], by simp [runLoop], ?_⟩
    intro a h
    simp only [runLoop] at h
    cases h
  | succ fuel ih =>
    intro answers prev hinv
    by_cases hall : allAnswered form.form_fields answers = true
    · refine ⟨by simp [runLoop, hall], by simp [runLoop, hall], ?_⟩
      intro a h
      simp only [runLoop, hall, if_true] at h
      cases h
      exact ⟨hall, hinv⟩
    · obtain ⟨hp1, hp2, hp3⟩ := runFields_const_true_cond form fd p hsame hcond htrue
        form.form_fields answers (fun f hf => hf) hinv
      rcases hrf : runFields form form.form_fields answers with ⟨evs, r2⟩
      have hevs : evs = (runFields form form.form_fields answers).1 := by rw [hrf]
      cases r2 with
      | error e =>
        have hloop : runLoop form (fuel + 1) answers prev = (0, evs, Except.error e) := by
          simp [runLoop, hall, hrf]
        refine ⟨?_, ?_, ?_⟩
        · intro v hv
          rw [hloop] at hv
          exact hp1 v (hevs ▸ hv)
        · intro e2 he2
          rw [hloop] at he2
          exact hp2 e2 (hevs ▸ he2)
        · intro a h
          rw [hloop] at h
          cases h
      | ok a2 =>
        have hinv2 : alookup a2 fd.key = none
            ∨ alookup a2 fd.key = some fd.question.default := by
          apply hp3
          rw [hrf]
        by_cases hstall : prev = a2.length
        · have hloop : runLoop form (fuel + 1) answers prev
              = (1, evs, Except.error Err.dependencyError) := by
            simp [runLoop, hall, hrf, hstall]
          refine ⟨?_, ?_, ?_⟩
          · intro v hv
            rw [hloop] at hv
            exact hp1 v (hevs ▸ hv)
          · intro e2 he2
            rw [hloop] at he2
            exact hp2 e2 (hevs ▸ he2)
          · intro a h
            rw [hloop] at h
            cases h
        · have hloop : runLoop form (fuel + 1) answers prev
              = ((runLoop form fuel a2 a2.length).1 + 1,
                 evs ++ (runLoop form fuel a2 a2.length).2.1,
                 (runLoop form fuel a2 a2.length).2.2) := by
            simp [runLoop, hall, hrf, hstall]
          obtain ⟨ih1, ih2, ih3⟩ := ih a2 a2.length hinv2
          refine ⟨?_, ?_, ?_⟩
          · intro v hv
            rw [hloop] at hv
            rcases List.mem_append.mp hv with h | h
            · exact hp1 v (hevs ▸ h)
            · exact ih1 v h
          · intro e2 he2
            rw [hloop] at he2
            rcases List.mem_append.mp he2 with h | h
            · exact hp2 e2 (hevs ▸ h)
            · exact ih2 e2 h
          · intro a h
            rw [hloop] at h
            exact ih3 a h

/-- C6: a field whose registered skip condition always evaluates to true
on the values view is never asked (no asked and no raising-ask event for
its key in the whole run) and, whenever unsafe_ask returns a mapping, the
entry recorded for that key is exactly the question's statically
configured default. -/
theorem resolve_skip_true_defaults_never_asks (form : Form) (fd : FormField) (p : Pred)
    (hmem : fd ∈ form.form_fields)
    (hsame : ∀ f ∈ form.form_fields, f.key = fd.key → f.question = fd.question)
    (hcond : alookup form.skip_conditions fd.key = some p)
    (htrue : ∀ view, p view = Except.ok true) :
    (∀ v, Ev.asked fd.key v ∉ (Form.resolve form).2.1)
    ∧ (∀ e, Ev.askRaised fd.key e ∉ (Form.resolve form).2.1)
    ∧ (∀ a, (Form.resolve form).2.2 = Except.ok a →
        alookup a fd.key = some fd.question.default) := by
  obtain ⟨h1, h2, h3⟩ := runLoop_const_true_cond form fd p hsame hcond htrue
    (form.form_fields.length + 1) [] 0 (Or.inl rfl)
  refine ⟨h1, h2, ?_⟩
  intro a ha
  obtain ⟨hall, hinv⟩ := h3 a ha
  have hc : acontains a fd.key = true := by
    have := List.all_eq_true.mp hall fd hmem
    simpa using this
  rcases hinv with h | h
  · rw [(acontains_false_iff a fd.key).mpr h] at hc
    cases hc
  · exact h

/-- Witness for C6: a single always-skipped field; its question would
answer 7 but the returned entry is the default 42 and no ask event
occurs. -/
theorem resolve_skip_true_defaults_never_asks_witness :
    Ev.asked "x" 7 ∉ (Form.resolve c6Form).2.1
    ∧ alookup [("x", 42)] "x" = some 42 :=
  ⟨(resolve_skip_true_defaults_never_asks c6Form ⟨"x", ⟨0, 42, Except.ok 7⟩⟩
      (fun _ => Except.ok true) (by simp [c6Form])
      (by
        intro f hf hk
        simp only [c6Form, List.mem_singleton] at hf
        rw [hf])
      rfl (fun _ => rfl)).1 7,
   (resolve_skip_true_defaults_never_asks c6Form ⟨"x", ⟨0, 42, Except.ok 7⟩⟩
      (fun _ => Except.ok true) (by simp [c6Form])
      (by
        intro f hf hk
        simp only [c6Form, List.mem_singleton] at hf
        rw [hf])
      rfl (fun _ => rfl)).2.2 [("x", 42)] rfl⟩

/-- C3: DependencyError arises exactly from a stalled pass.  At any loop
iteration (the loop always carries the current answer count as the
progress marker) where fields remain unanswered and the pass completes,
the outcome is DependencyError precisely when that pass added no new
answer or a later iteration raises it; and the two canonical stuck forms
each fail after exactly one pass: the two-field condition cycle and the
single field whose condition reads a key that is never a field key. -/
theorem resolve_dependency_error_iff_stall :
    (∀ (form : Form) (fuel : Nat) (answers : Answers) (evs : List Ev) (a2 : Answers),
        allAnswered form.form_fields answers = false →
        runFields form form.form_fields answers = (evs, Except.ok a2) →
        ((runLoop form (fuel + 1) answers answers.length).2.2
            = Except.error Err.dependencyError
          ↔ (answers.length = a2.length
             ∨ (runLoop form fuel a2 a2.length).2.2
                 = Except.error Err.dependencyError)))
    ∧ Form.resolve cycForm
        = (1, [Ev.pendingPred "p", Ev.pendingPred "q"], Except.error Err.dependencyError)
    ∧ Form.resolve d7Form
        = (1, [Ev.pendingPred "x"], Except.error Err.dependencyError) := by
  refine ⟨?_, rfl, rfl⟩
  intro form fuel answers evs a2 hall hrf
  by_cases hstall : answers.length = a2.length
  · have hloop : runLoop form (fuel + 1) answers answers.length
        = (1, evs, Except.error Err.dependencyError) := by
      simp [runLoop, hall, hrf, hstall]
    rw [hloop]
    simp [hstall]
  · have hloop : runLoop form (fuel + 1) answers answers.length
        = ((runLoop form fuel a2 a2.length).1 + 1,
           evs ++ (runLoop form fuel a2 a2.length).2.1,
           (runLoop form fuel a2 a2.length).2.2) := by
      simp [runLoop, hall, hrf, hstall]
    rw [hloop]
    simp [hstall]

/-- Witness for C3 at the cycle form: pass one completes with no new
answer, so the next iteration reports DependencyError, matching the
right-hand disjunct. -/
theorem resolve_dependency_error_iff_stall_witness :
    (runLoop cycForm (0 + 1) [] (List.length ([] : Answers))).2.2
        = Except.error Err.dependencyError
      ↔ (List.length ([] : Answers) = List.length ([] : Answers)
         ∨ (runLoop cycForm 0 [] (List.length ([] : Answers))).2.2
             = Except.error Err.dependencyError) :=
  resolve_dependency_error_iff_stall.1 cycForm 0 []
    [Ev.pendingPred "p", Ev.pendingPred "q"] [] rfl rfl

/-- Witness for the amended C10 theorem at concrete inputs: both movement
flags off yields the movement ValueError; an empty list with arrow keys
yields the no-choices ValueError; a one-choice list with shortcuts, arrow
and i/j keys enabled raises neither of those two ValueErrors. -/
theorem select_validation_amended_witness :
    select (some [⟨none⟩]) false false true 3 = SelectOutcome.valueErrorMovement
    ∧ select (some []) false true true 3 = SelectOutcome.valueErrorNoChoices
    ∧ (select (some [⟨none⟩]) true true true 3 ≠ SelectOutcome.valueErrorNoChoices
       ∧ select (some [⟨none⟩]) true true true 3 ≠ SelectOutcome.valueErrorMovement) :=
  ⟨select_validation_amended.1 (some [⟨none⟩]) true 3,
   select_validation_amended.2.1 (some []) false true true 3 (Or.inr rfl) rfl (by decide),
   select_validation_amended.2.2 [⟨none⟩] true true true 3 (by decide) rfl⟩
